import Mathlib

/-!
Verification development for the voice-ingest service (`src/main.py`).

The Python source is shallowly embedded: each Python function the claims
touch becomes a Lean definition of the same name (modulo Lean naming
rules), over an explicit model of its inputs.  Network responses, the
state file and filesystem outcomes are passed in as explicit values:
the embedding covers the program's own control flow and data handling,
not the collaborators behind the HTTP and OS boundaries.
-/

/-! ## JSON values

Model of the values `json.loads` can produce.  Arrays and objects are
their own mutual inductives (rather than nested `List`s) so that
decidable equality can be derived; `JArr.toList`/`JArr.ofList` convert.
JSON numbers are modelled as `Int`: no claim depends on fractional
values, only on the shape of the data.
-/

mutual
inductive JValue where
  | null
  | jbool (b : Bool)
  | num (n : Int)
  | str (s : String)
  | arr (xs : JArr)
  | obj (kvs : JObj)
  deriving DecidableEq
inductive JArr where
  | anil
  | acons (hd : JValue) (tl : JArr)
  deriving DecidableEq
inductive JObj where
  | onil
  | ocons (k : String) (v : JValue) (tl : JObj)
  deriving DecidableEq
end

def JArr.toList : JArr → List JValue
  | .anil => []
  | .acons h t => h :: t.toList

def JArr.ofList : List JValue → JArr
  | [] => .anil
  | h :: t => .acons h (JArr.ofList t)

/-- Keys of an object, in order of appearance (iterating a Python dict
yields its keys). -/
def JObj.keys : JObj → List String
  | .onil => []
  | .ocons k _ t => k :: t.keys

def JObj.hasKey : JObj → String → Bool
  | .onil, _ => false
  | .ocons k _ t, key => k == key || t.hasKey key

/-- Lookup modelling `dict.get(key)` on a dict built by `json.loads`:
when a key occurs several times in the JSON text, successive assignment
makes the LAST value win. -/
def JObj.get? : JObj → String → Option JValue
  | .onil, _ => none
  | .ocons k v t, key =>
    if t.hasKey key then t.get? key
    else if k == key then some v else none

/-- Lookup modelling `dict.get(key, default)`. -/
def JObj.getD (o : JObj) (key : String) (d : JValue) : JValue :=
  (o.get? key).getD d

/-- A value a Python `set(...)` may contain: `null`/`bool`/`num`/`str`
are hashable, lists and dicts are not. -/
def jHashable : JValue → Bool
  | .arr _ => false
  | .obj _ => false
  | _ => true

def jArrHashable : JArr → Bool
  | .anil => true
  | .acons h t => jHashable h && jArrHashable t

def jIsObj : JValue → Bool
  | .obj _ => true
  | _ => false

/-! ## Python string helpers -/

/-- Whitespace as stripped by `str.strip()` (ASCII range; the source
only ever strips STT transcripts). `Char.ofNat 11`/`12` are vertical
tab and form feed. -/
def pyIsSpace (c : Char) : Bool :=
  c == ' ' || c == '\t' || c == '\n' || c == '\r' ||
  c == Char.ofNat 11 || c == Char.ofNat 12

/-- Strip whitespace from both ends of a character list. -/
def stripList (l : List Char) : List Char :=
  ((l.dropWhile pyIsSpace).reverse.dropWhile pyIsSpace).reverse

/-- Python `str.strip()`. -/
def pyStrip (s : String) : String := String.mk (stripList s.data)

/-- Python `str.lower()` (ASCII case folding, which is all the audio
extensions need). -/
def pyLower (s : String) : String := String.mk (s.data.map Char.toLower)

/-- Python `pathlib.PurePath.suffix` on a file name: the substring from
the last dot, provided that dot is neither the first nor the last
character; otherwise the empty string. -/
def pySuffix (s : String) : String :=
  let cs := s.data
  let idxs := (List.range cs.length).filter (fun i => cs.getD i ' ' == '.')
  match idxs.getLast? with
  | none => ""
  | some i => if 0 < i && i < cs.length - 1 then String.mk (cs.drop i) else ""

/-! ## Exceptions and state store -/

/-- The Python exceptions the embedding distinguishes.  `osError`
stands for any `OSError` (file I/O failures), the others for the
uncaught dynamic-typing errors the source can raise. -/
inductive PyErr where
  | attributeError
  | typeError
  | osError
  deriving DecidableEq

/-- What the state file contains when `load_state` runs: absent, text
that `json.loads` rejects, or text parsing to a JSON value. -/
inductive FileContent where
  | absent
  | badSyntax
  | parsed (v : JValue)

/-- Python `set(v)` on a JSON value: a list yields the set of its
elements provided all are hashable (`TypeError` otherwise), a string
yields its characters as one-character strings, a dict yields its keys,
and `null`/`bool`/`num` are not iterable (`TypeError`). -/
def pySet : JValue → Except PyErr (Finset JValue)
  | .arr xs =>
    if jArrHashable xs then .ok xs.toList.toFinset else .error .typeError
  | .str s => .ok ((s.data.map (fun ch => JValue.str (String.mk [ch]))).toFinset)
  | .obj kvs => .ok ((kvs.keys.map JValue.str).toFinset)
  | _ => .error .typeError

/-- Embedding of `load_state` (src/main.py lines 50-58).  The
`try`/`except` catches only `json.JSONDecodeError` and `KeyError`
(the latter can in fact never fire, since `data.get` defaults); it does
NOT catch the `AttributeError` raised by `data.get` when the parsed
top-level value is not a dict, nor the `TypeError` `set(...)` raises on
a non-iterable or unhashable-element value. -/
def load_state (c : FileContent) : Except PyErr (Finset JValue) :=
  match c with
  | .absent => .ok ∅
  | .badSyntax => .ok ∅
  | .parsed (.obj kvs) => pySet (kvs.getD "processed" (.arr .anil))
  | .parsed _ => .error .attributeError

/-- The JSON value `save_state` serialises (src/main.py lines 61-67):
an object with the sorted member list under `"processed"` and a
timestamp under `"updated"`. -/
def save_stateJson (processed : Finset String) (ts : String) : JValue :=
  .obj (.ocons "processed"
          (.arr (JArr.ofList ((processed.sort (· ≤ ·)).map JValue.str)))
          (.ocons "updated" (.str ts) .onil))

/-- Serialisation of a JSON string without escape-needing characters
(filenames and ISO timestamps contain none). -/
def jsonQuote (s : String) : String := "\"" ++ s ++ "\""

/-- The exact text `json.dumps({"processed": names, "updated": ts},
indent=2)` produces, for strings needing no escapes. -/
def dumpsStateText (names : List String) (ts : String) : String :=
  match names with
  | [] => "\x7b\n  \"processed\": [],\n  \"updated\": " ++ jsonQuote ts ++ "\n\x7d"
  | _ =>
    "\x7b\n  \"processed\": [\n    "
      ++ String.intercalate ",\n    " (names.map jsonQuote)
      ++ "\n  ],\n  \"updated\": " ++ jsonQuote ts ++ "\n\x7d"

/-- CPython `Path.write_text` opens the file with mode `"w"` — which
truncates it on open — and then writes the text.  The on-disk contents
a crash concurrent with the call can leave behind are therefore: the
old content (crash before the open) or any prefix of the new text
(crash after the open, mid-write). -/
def write_textCrashStates (old new : String) : List String :=
  old :: (List.range (new.data.length + 1)).map (fun n => String.mk (new.data.take n))

/-- On-disk states a crash concurrent with `save_state` can leave: the
source calls `STATE_FILE.write_text(json.dumps(..., indent=2))` with no
temp-file-and-rename step. -/
def save_stateCrashStates (old : String) (processed : Finset String) (ts : String) :
    List String :=
  write_textCrashStates old (dumpsStateText (processed.sort (· ≤ ·)) ts)

/-! ## Transcription client -/

/-- A transcript as `transcribe` returns it: the stripped text plus
`data.get("duration")`. -/
structure Transcript where
  text : String
  duration : Option JValue
  deriving DecidableEq

/-- Outcome of `resp.json()`: the body either fails to parse or parses
to a JSON value. -/
inductive SttBody where
  | parseFail
  | parsed (v : JValue)

/-- Outcome of the `requests.post` to the STT endpoint: a transport
failure (`requests.RequestException`), or a response with a status code
and a body. -/
inductive SttHttp where
  | transportError
  | response (status : Nat) (body : SttBody)

/-- Embedding of `transcribe` (src/main.py lines 72-100).
`resp.raise_for_status()` raises `requests.HTTPError` — a
`RequestException`, hence caught — exactly for status codes 400-599.
A parse failure is caught.  But if the parsed body is not a dict,
`data.get` raises `AttributeError`; if the `"text"` value is not a
string (e.g. JSON `null` or a number), `.strip()` raises
`AttributeError`; neither is caught by the handlers at lines 95-100. -/
def transcribe (r : SttHttp) : Except PyErr (Option Transcript) :=
  match r with
  | .transportError => .ok none
  | .response code body =>
    if 400 ≤ code ∧ code < 600 then .ok none
    else
      match body with
      | .parseFail => .ok none
      | .parsed (.obj kvs) =>
        match kvs.getD "text" (.str "") with
        | .str s =>
          let text := pyStrip s
          if text = "" then .ok none
          else .ok (some ⟨text, kvs.get? "duration"⟩)
        | _ => .error .attributeError
      | .parsed _ => .error .attributeError

/-! ## Delivery client -/

/-- Outcome of the `requests.post` to the webhook: a transport failure
(`requests.RequestException`, caught) or a response status code.  The
payload built at lines 105-139 is pure data assembly and does not
influence the returned value, so it is not modelled. -/
inductive DeliveryHttp where
  | transportError
  | status (code : Nat)

/-- Embedding of the control flow of `send_to_openclaw`
(src/main.py lines 141-159): `True` exactly when the response status is
200 or 202, `False` on any other status or on a transport failure. -/
def send_to_openclaw (r : DeliveryHttp) : Bool :=
  match r with
  | .status code => code == 200 || code == 202
  | .transportError => false

/-! ## Ingestion engine -/

/-- Configuration the processing functions read from module globals. -/
structure Env where
  minFileAge : Int
  deleteAfter : Bool
  now : Int

/-- A discovered file as `process_file` sees it. -/
structure Candidate where
  name : String
  mtime : Int
  size : Nat

/-- The external outcomes one processing attempt can encounter:
the STT exchange, the webhook exchange, whether
`save_state`'s file write succeeds (`False` = it raises `OSError`),
and whether `audio_path.unlink()` succeeds (`False` = `OSError`). -/
structure World where
  stt : SttHttp
  delivery : DeliveryHttp
  saveOk : Bool
  unlinkOk : Bool

/-- Externally visible actions of one processing attempt, in order. -/
inductive Effect where
  | sttCall
  | deliveryCall
  | markProcessed
  | saveCall
  | unlinkCall
  deriving DecidableEq

/-- Embedding of `process_file` (src/main.py lines 164-216).  Returns
the Python return value (or the uncaught exception), the updated
in-memory processed set, and the trace of externally visible actions.
The membership test and `processed.add` use the string-valued filename;
the set is `Finset JValue` because `load_state` can surface non-string
entries from a hand-edited state file (they compare unequal to every
filename).  The two `unlinkOk` branches coincide because the
`except OSError` handler at line 210 only logs. -/
def process_file (env : Env) (c : Candidate) (w : World) (processed : Finset JValue) :
    Except PyErr Bool × Finset JValue × List Effect :=
  if JValue.str c.name ∈ processed then (.ok false, processed, [])
  else if env.now - c.mtime < env.minFileAge then (.ok false, processed, [])
  else
    match transcribe w.stt with
    | .error e => (.error e, processed, [.sttCall])
    | .ok none => (.ok false, processed, [.sttCall])
    | .ok (some _result) =>
      if send_to_openclaw w.delivery then
        let processed' := insert (JValue.str c.name) processed
        if w.saveOk then
          if env.deleteAfter then
            if w.unlinkOk then
              (.ok true, processed',
                [.sttCall, .deliveryCall, .markProcessed, .saveCall, .unlinkCall])
            else
              (.ok true, processed',
                [.sttCall, .deliveryCall, .markProcessed, .saveCall, .unlinkCall])
          else
            (.ok true, processed', [.sttCall, .deliveryCall, .markProcessed, .saveCall])
        else
          (.error .osError, processed',
            [.sttCall, .deliveryCall, .markProcessed, .saveCall])
      else (.ok false, processed, [.sttCall, .deliveryCall])

/-- The audio-extension allow-list (src/main.py line 32). -/
def audioExtensions : List String :=
  [".m4a", ".ogg", ".wav", ".mp3", ".opus", ".flac", ".wma"]

/-- A directory entry as the sweep sees it, together with the external
outcomes its processing attempt would encounter. -/
structure DirEntry where
  name : String
  isFile : Bool
  mtime : Int
  size : Nat
  world : World

/-- Embedding of `process_existing` (src/main.py lines 251-259): the
entries are consumed in the order `sorted(WATCH_DIR.iterdir())`
produces them.  The `for` body has no `try`/`except`, so an exception
from `process_file` propagates, abandoning the remaining entries. -/
def process_existing (env : Env) (items : List DirEntry) (processed : Finset JValue) :
    Except PyErr Unit × Finset JValue × List Effect × Nat :=
  match items with
  | [] => (.ok (), processed, [], 0)
  | e :: rest =>
    if e.isFile && audioExtensions.contains (pyLower (pySuffix e.name)) then
      match process_file env ⟨e.name, e.mtime, e.size⟩ e.world processed with
      | (.error err, p1, tr) => (.error err, p1, tr, 0)
      | (.ok b, p1, tr) =>
        match process_existing env rest p1 with
        | (r, p2, tr2, cnt) => (r, p2, tr ++ tr2, (if b then 1 else 0) + cnt)
    else process_existing env rest processed

/-- Embedding of the main watch loop (src/main.py lines 316-322) run
over a finite schedule of sweeps: `while True: sleep; process_existing`
with only `KeyboardInterrupt` caught, so any exception escaping a sweep
terminates the loop (and the process). -/
def runSweeps (env : Env) (sweeps : List (List DirEntry)) (processed : Finset JValue) :
    Except PyErr (Finset JValue) × List Effect :=
  match sweeps with
  | [] => (.ok processed, [])
  | s :: rest =>
    match process_existing env s processed with
    | (.error e, _, tr, _) => (.error e, tr)
    | (.ok _, p1, tr, _) =>
      match runSweeps env rest p1 with
      | (r, tr2) => (r, tr ++ tr2)

/-! ## Startup -/

/-- The required configuration values `main` validates. -/
structure Config where
  sttUrl : String
  openclawUrl : String
  hookToken : String

inductive StartupCheck where
  | exitWith (code : Nat) (diagnostic : String)
  | proceed
  deriving DecidableEq

/-- Embedding of the validation prologue of `main` (src/main.py lines
262-272): Python truthiness on a string means "non-empty", and
`sys.exit(1)` follows the logged diagnostic. -/
def validateConfig (cfg : Config) : StartupCheck :=
  if cfg.sttUrl = "" then .exitWith 1 "STT_URL is required"
  else if cfg.openclawUrl = "" then .exitWith 1 "OPENCLAW_URL is required"
  else if cfg.hookToken = "" then .exitWith 1 "OPENCLAW_HOOK_TOKEN is required"
  else .proceed

/-- How the modelled portion of `main` ends: a `sys.exit` or an
uncaught Python exception. -/
inductive MainErr where
  | sysExit (code : Nat) (diagnostic : String)
  | pyRaise (e : PyErr)
  deriving DecidableEq

/-- Embedding of `main` (src/main.py lines 262-286) through the startup
sweep: validate configuration, load the state file, then sweep existing
files.  Config validation precedes every filesystem and processing
step. -/
def mainRun (cfg : Config) (env : Env) (content : FileContent) (items : List DirEntry) :
    Except MainErr (Finset JValue) × List Effect :=
  match validateConfig cfg with
  | .exitWith c d => (.error (.sysExit c d), [])
  | .proceed =>
    match load_state content with
    | .error e => (.error (.pyRaise e), [])
    | .ok processed =>
      match process_existing env items processed with
      | (.error e, _, tr, _) => (.error (.pyRaise e), tr)
      | (.ok _, p1, tr, _) => (.ok p1, tr)

/-! ## Helper lemmas -/

theorem List.toFinset_map_eq_image {α β : Type} [DecidableEq α] [DecidableEq β]
    (f : α → β) (l : List α) : (l.map f).toFinset = l.toFinset.image f := by
  induction l with
  | nil => simp
  | cons a t ih => simp [ih]

theorem jArrHashable_ofList_str (l : List String) :
    jArrHashable (JArr.ofList (l.map JValue.str)) = true := by
  induction l with
  | nil => rfl
  | cons a t ih => simp [JArr.ofList, jArrHashable, jHashable, ih]

theorem JArr.toList_ofList (l : List JValue) : (JArr.ofList l).toList = l := by
  induction l with
  | nil => rfl
  | cons a t ih => simp [JArr.ofList, JArr.toList, ih]

theorem dropWhile_head_false {α : Type} (p : α → Bool) :
    ∀ (l : List α) (a : α) (t : List α), l.dropWhile p = a :: t → p a = false := by
  intro l
  induction l with
  | nil => intro a t h; simp [List.dropWhile] at h
  | cons b bt ih =>
    intro a t h
    rw [List.dropWhile_cons] at h
    by_cases hb : p b
    · rw [if_pos hb] at h; exact ih a t h
    · rw [if_neg hb] at h
      cases h
      simpa using hb

theorem dropWhile_fix {α : Type} (p : α → Bool) (l : List α)
    (h : ∀ a ∈ l.head?, p a = false) : l.dropWhile p = l := by
  cases l with
  | nil => rfl
  | cons a t =>
    rw [List.dropWhile_cons, if_neg]
    simp_all

theorem dropWhile_idem {α : Type} (p : α → Bool) (l : List α) :
    (l.dropWhile p).dropWhile p = l.dropWhile p := by
  apply dropWhile_fix
  intro a ha
  cases hl : l.dropWhile p with
  | nil => rw [hl] at ha; simp at ha
  | cons b t =>
    rw [hl] at ha
    simp only [List.head?] at ha
    cases ha
    exact dropWhile_head_false p l _ t hl

theorem dropWhile_getLast? {α : Type} (p : α → Bool) :
    ∀ (l : List α), l.dropWhile p ≠ [] → (l.dropWhile p).getLast? = l.getLast? := by
  intro l
  induction l with
  | nil => intro h; simp [List.dropWhile] at h
  | cons a t ih =>
    intro h
    rw [List.dropWhile_cons] at h ⊢
    by_cases ha : p a
    · rw [if_pos ha] at h ⊢
      have ht : t ≠ [] := by
        intro he
        rw [he] at h
        simp [List.dropWhile] at h
      rw [ih h]
      cases t with
      | nil => exact absurd rfl ht
      | cons b bt => exact (List.getLast?_cons_cons).symm
    · rw [if_neg ha]

theorem stripList_dropWhile_self (l : List Char) :
    (stripList l).dropWhile pyIsSpace = stripList l := by
  apply dropWhile_fix
  intro a ha
  unfold stripList at ha
  rw [List.head?_reverse] at ha
  cases hy : ((l.dropWhile pyIsSpace).reverse.dropWhile pyIsSpace) with
  | nil => rw [hy] at ha; simp at ha
  | cons b t =>
    have hne : (l.dropWhile pyIsSpace).reverse.dropWhile pyIsSpace ≠ [] := by
      rw [hy]; simp
    have h1 : ((l.dropWhile pyIsSpace).reverse.dropWhile pyIsSpace).getLast? =
        (l.dropWhile pyIsSpace).reverse.getLast? := dropWhile_getLast? _ _ hne
    rw [h1, List.getLast?_reverse] at ha
    cases hm : l.dropWhile pyIsSpace with
    | nil => rw [hm] at ha; simp at ha
    | cons c ct =>
      rw [hm] at ha
      simp only [List.head?] at ha
      cases ha
      exact dropWhile_head_false pyIsSpace l _ ct hm

theorem stripList_idem (l : List Char) : stripList (stripList l) = stripList l := by
  calc stripList (stripList l)
      = (((stripList l).dropWhile pyIsSpace).reverse.dropWhile pyIsSpace).reverse := rfl
    _ = ((stripList l).reverse.dropWhile pyIsSpace).reverse := by
        rw [stripList_dropWhile_self]
    _ = ((((l.dropWhile pyIsSpace).reverse.dropWhile pyIsSpace).reverse).reverse.dropWhile
          pyIsSpace).reverse := rfl
    _ = (((l.dropWhile pyIsSpace).reverse.dropWhile pyIsSpace).dropWhile pyIsSpace).reverse := by
        rw [List.reverse_reverse]
    _ = ((l.dropWhile pyIsSpace).reverse.dropWhile pyIsSpace).reverse := by
        rw [dropWhile_idem]
    _ = stripList l := rfl

theorem pyStrip_idem (s : String) : pyStrip (pyStrip s) = pyStrip s := by
  unfold pyStrip
  exact congrArg String.mk (stripList_idem s.data)

theorem process_file_mono (env : Env) (c : Candidate) (w : World)
    (processed : Finset JValue) : processed ⊆ (process_file env c w processed).2.1 := by
  unfold process_file
  by_cases hmem : JValue.str c.name ∈ processed
  · simp [hmem]
  · rw [if_neg hmem]
    by_cases hage : env.now - c.mtime < env.minFileAge
    · simp [hage]
    · rw [if_neg hage]
      cases transcribe w.stt with
      | error e => simp
      | ok o =>
        cases o with
        | none => simp
        | some t =>
          by_cases hs : send_to_openclaw w.delivery <;>
            by_cases hsave : w.saveOk <;>
              by_cases hdel : env.deleteAfter <;>
                by_cases hul : w.unlinkOk <;>
                  simp [hs, hsave, hdel, hul, Finset.subset_insert]

theorem process_existing_mono (env : Env) :
    ∀ (items : List DirEntry) (processed : Finset JValue),
      processed ⊆ (process_existing env items processed).2.1 := by
  intro items
  induction items with
  | nil => intro processed; simp [process_existing]
  | cons e rest ih =>
    intro processed
    unfold process_existing
    by_cases hf : e.isFile && audioExtensions.contains (pyLower (pySuffix e.name))
    · rw [if_pos hf]
      have h1 := process_file_mono env ⟨e.name, e.mtime, e.size⟩ e.world processed
      rcases hpf : process_file env ⟨e.name, e.mtime, e.size⟩ e.world processed
        with ⟨r, p1, tr⟩
      rw [hpf] at h1
      cases r with
      | error err => exact h1
      | ok b =>
        have h2 := ih p1
        rcases hrec : process_existing env rest p1 with ⟨r2, p2, tr2, cnt⟩
        rw [hrec] at h2
        simp only [hrec]
        exact h1.trans h2
    · rw [if_neg hf]
      exact ih processed

/-! ## Claims -/

/-- C1: for every filename already in the Processed-Set, presenting it
again makes `process_file` return `False` (not processed) with the set
unchanged and an empty action trace — no transcription call, no
delivery call, no store write, no deletion.  This is the guard at
src/main.py lines 168-169, reached from the startup sweep, watch events
and the periodic sweep alike, all of which funnel into `process_file`. -/
theorem C1_processed_set_idempotent (env : Env) (c : Candidate) (w : World)
    (processed : Finset JValue) (h : JValue.str c.name ∈ processed) :
    process_file env c w processed = (.ok false, processed, []) := by
  simp [process_file, h]

theorem C1_witness :
    JValue.str "a.m4a" ∈ insert (JValue.str "a.m4a") (∅ : Finset JValue) ∧
    process_file ⟨5, true, 100⟩ ⟨"a.m4a", 0, 10⟩
        ⟨.transportError, .transportError, true, true⟩
        (insert (JValue.str "a.m4a") ∅) =
      (.ok false, insert (JValue.str "a.m4a") ∅, []) :=
  ⟨by decide,
   C1_processed_set_idempotent ⟨5, true, 100⟩ ⟨"a.m4a", 0, 10⟩
     ⟨.transportError, .transportError, true, true⟩
     (insert (JValue.str "a.m4a") ∅) (by decide)⟩

/-- C5: a candidate whose age `now - mtime` is strictly below
`MIN_FILE_AGE` is skipped with no side effects (empty trace, set
unchanged, returns `False`); a candidate at least that old that is not
already processed always reaches the transcription call.  Src/main.py
lines 171-180. -/
theorem C5_age_gating :
    (∀ (env : Env) (c : Candidate) (w : World) (processed : Finset JValue),
        env.now - c.mtime < env.minFileAge →
        process_file env c w processed = (.ok false, processed, [])) ∧
    (∀ (env : Env) (c : Candidate) (w : World) (processed : Finset JValue),
        JValue.str c.name ∉ processed →
        env.minFileAge ≤ env.now - c.mtime →
        Effect.sttCall ∈ (process_file env c w processed).2.2) := by
  constructor
  · intro env c w processed hage
    by_cases hmem : JValue.str c.name ∈ processed <;> simp [process_file, hmem, hage]
  · intro env c w processed hmem hage
    unfold process_file
    rw [if_neg hmem, if_neg (not_lt.mpr hage)]
    cases transcribe w.stt with
    | error e => simp
    | ok o =>
      cases o with
      | none => simp
      | some t =>
        by_cases hs : send_to_openclaw w.delivery <;>
          by_cases hsave : w.saveOk <;>
            by_cases hdel : env.deleteAfter <;>
              by_cases hul : w.unlinkOk <;>
                simp [hs, hsave, hdel, hul]

theorem C5_witness :
    ((3 : Int) - 0 < 5 ∧
      process_file ⟨5, true, 3⟩ ⟨"x.wav", 0, 1⟩
          ⟨.transportError, .transportError, true, true⟩ ∅ = (.ok false, ∅, [])) ∧
    (JValue.str "y.wav" ∉ (∅ : Finset JValue) ∧ (5 : Int) ≤ 100 - 0 ∧
      Effect.sttCall ∈
        (process_file ⟨5, true, 100⟩ ⟨"y.wav", 0, 1⟩
          ⟨.transportError, .transportError, true, true⟩ ∅).2.2) :=
  ⟨⟨by decide,
    C5_age_gating.1 ⟨5, true, 3⟩ ⟨"x.wav", 0, 1⟩
      ⟨.transportError, .transportError, true, true⟩ ∅ (by decide)⟩,
   ⟨by decide, by decide,
    C5_age_gating.2 ⟨5, true, 100⟩ ⟨"y.wav", 0, 1⟩
      ⟨.transportError, .transportError, true, true⟩ ∅ (by decide) (by decide)⟩⟩

/-- C6: `send_to_openclaw` reports success exactly for HTTP status 200
or 202, and reports failure on every other status and on a transport
failure (src/main.py lines 141-159); whenever the delivery report is a
failure, `process_file` never returns `True`, leaves the processed set
unchanged, performs no store write and no deletion, so the file remains
eligible for the next cycle (lines 198-216). -/
theorem C6_delivery_semantics :
    (∀ code : Nat, send_to_openclaw (.status code) = true ↔ (code = 200 ∨ code = 202)) ∧
    (send_to_openclaw .transportError = false) ∧
    (∀ (env : Env) (c : Candidate) (w : World) (processed : Finset JValue),
        send_to_openclaw w.delivery = false →
        (process_file env c w processed).1 ≠ .ok true ∧
        (process_file env c w processed).2.1 = processed ∧
        Effect.saveCall ∉ (process_file env c w processed).2.2 ∧
        Effect.unlinkCall ∉ (process_file env c w processed).2.2) := by
  refine ⟨?_, rfl, ?_⟩
  · intro code
    simp [send_to_openclaw]
  · intro env c w processed hs
    unfold process_file
    by_cases hmem : JValue.str c.name ∈ processed
    · simp [hmem]
    · rw [if_neg hmem]
      by_cases hage : env.now - c.mtime < env.minFileAge
      · simp [hage]
      · rw [if_neg hage]
        cases transcribe w.stt with
        | error e => simp
        | ok o =>
          cases o with
          | none => simp
          | some t => simp [hs]

theorem C6_witness :
    (send_to_openclaw (.status 503) = true ↔ (503 = 200 ∨ 503 = 202)) ∧
    ((process_file ⟨5, true, 100⟩ ⟨"z.m4a", 0, 1⟩
        ⟨.response 200 (.parsed (.obj (.ocons "text" (.str "hi") .onil))),
          .status 503, true, true⟩ ∅).1 ≠ .ok true ∧
      (process_file ⟨5, true, 100⟩ ⟨"z.m4a", 0, 1⟩
        ⟨.response 200 (.parsed (.obj (.ocons "text" (.str "hi") .onil))),
          .status 503, true, true⟩ ∅).2.1 = ∅ ∧
      Effect.saveCall ∉
        (process_file ⟨5, true, 100⟩ ⟨"z.m4a", 0, 1⟩
          ⟨.response 200 (.parsed (.obj (.ocons "text" (.str "hi") .onil))),
            .status 503, true, true⟩ ∅).2.2 ∧
      Effect.unlinkCall ∉
        (process_file ⟨5, true, 100⟩ ⟨"z.m4a", 0, 1⟩
          ⟨.response 200 (.parsed (.obj (.ocons "text" (.str "hi") .onil))),
            .status 503, true, true⟩ ∅).2.2) :=
  ⟨C6_delivery_semantics.1 503,
   C6_delivery_semantics.2.2 ⟨5, true, 100⟩ ⟨"z.m4a", 0, 1⟩
     ⟨.response 200 (.parsed (.obj (.ocons "text" (.str "hi") .onil))),
       .status 503, true, true⟩ ∅ (by decide)⟩

/-- C8: startup validation (src/main.py lines 262-272) checks the three
required values in order; a missing one makes `main` log the diagnostic
naming it and `sys.exit(1)` (non-zero) before any file processing
happens (empty action trace); with all three present validation
proceeds. -/
theorem C8_config_validation :
    (∀ (cfg : Config) (env : Env) (content : FileContent) (items : List DirEntry),
        cfg.sttUrl = "" →
        mainRun cfg env content items = (.error (.sysExit 1 "STT_URL is required"), [])) ∧
    (∀ (cfg : Config) (env : Env) (content : FileContent) (items : List DirEntry),
        cfg.sttUrl ≠ "" → cfg.openclawUrl = "" →
        mainRun cfg env content items =
          (.error (.sysExit 1 "OPENCLAW_URL is required"), [])) ∧
    (∀ (cfg : Config) (env : Env) (content : FileContent) (items : List DirEntry),
        cfg.sttUrl ≠ "" → cfg.openclawUrl ≠ "" → cfg.hookToken = "" →
        mainRun cfg env content items =
          (.error (.sysExit 1 "OPENCLAW_HOOK_TOKEN is required"), [])) ∧
    (∀ cfg : Config, cfg.sttUrl ≠ "" → cfg.openclawUrl ≠ "" → cfg.hookToken ≠ "" →
        validateConfig cfg = .proceed) ∧ (1 : Nat) ≠ 0 := by
  refine ⟨?_, ?_, ?_, ?_, one_ne_zero⟩ <;>
    · intros
      simp [mainRun, validateConfig, *]

theorem C8_witness :
    mainRun ⟨"", "http://oc", "tok"⟩ ⟨5, true, 100⟩ .absent [] =
      (.error (.sysExit 1 "STT_URL is required"), []) ∧
    validateConfig ⟨"http://stt", "http://oc", "tok"⟩ = .proceed :=
  ⟨C8_config_validation.1 ⟨"", "http://oc", "tok"⟩ ⟨5, true, 100⟩ .absent [] rfl,
   C8_config_validation.2.2.2.1 ⟨"http://stt", "http://oc", "tok"⟩
     (by decide) (by decide) (by decide)⟩

/-- C10: `save_state` followed by `load_state` is the identity on the
set of filenames: saving a set `s` serialises the sorted member list
under `"processed"` (src/main.py lines 61-67) and loading reads exactly
that list back into a set (lines 50-58); the loaded set is `s`'s image
under the string constructor of the JSON model. -/
theorem C10_save_load_roundtrip (s : Finset String) (ts : String) :
    load_state (.parsed (save_stateJson s ts)) = .ok (s.image JValue.str) := by
  simp [load_state, save_stateJson, JObj.getD, JObj.get?, JObj.hasKey, pySet,
        jArrHashable_ofList_str, JArr.toList_ofList, List.toFinset_map_eq_image,
        Finset.sort_toFinset]

/-- C7: the processed marker is monotone (no operation ever removes a
filename, src/main.py has no discard/remove on the set), a filename not
yet processed enters the set only when `send_to_openclaw` reported
success, and on delivery success the order of actions is: add to the
in-memory set, persist the store, then attempt deletion — with the
deletion attempt's outcome (the `except OSError` at lines 210-211)
unable to change the result or the set, hence no rollback.
Src/main.py lines 200-216. -/
theorem C7_mark_after_delivery :
    (∀ (env : Env) (c : Candidate) (w : World) (processed : Finset JValue),
        processed ⊆ (process_file env c w processed).2.1) ∧
    (∀ (env : Env) (items : List DirEntry) (processed : Finset JValue),
        processed ⊆ (process_existing env items processed).2.1) ∧
    (∀ (env : Env) (c : Candidate) (w : World) (processed : Finset JValue),
        JValue.str c.name ∉ processed →
        JValue.str c.name ∈ (process_file env c w processed).2.1 →
        send_to_openclaw w.delivery = true) ∧
    (∀ (env : Env) (c : Candidate) (w : World) (processed : Finset JValue)
        (t : Transcript),
        JValue.str c.name ∉ processed →
        env.minFileAge ≤ env.now - c.mtime →
        transcribe w.stt = .ok (some t) →
        send_to_openclaw w.delivery = true →
        w.saveOk = true →
        process_file env c w processed =
          (.ok true, insert (JValue.str c.name) processed,
            [.sttCall, .deliveryCall, .markProcessed, .saveCall] ++
              if env.deleteAfter then [Effect.unlinkCall] else [])) := by
  refine ⟨process_file_mono, process_existing_mono, ?_, ?_⟩
  · intro env c w processed hmem hin
    unfold process_file at hin
    rw [if_neg hmem] at hin
    by_cases hage : env.now - c.mtime < env.minFileAge
    · rw [if_pos hage] at hin
      exact absurd hin hmem
    · rw [if_neg hage] at hin
      cases htr : transcribe w.stt with
      | error e =>
        rw [htr] at hin
        exact absurd hin hmem
      | ok o =>
        cases o with
        | none =>
          rw [htr] at hin
          exact absurd hin hmem
        | some t =>
          rw [htr] at hin
          by_cases hs : send_to_openclaw w.delivery
          · exact hs
          · simp [hs] at hin
            exact absurd hin hmem
  · intro env c w processed t hmem hage htr hs hsave
    unfold process_file
    rw [if_neg hmem, if_neg (not_lt.mpr hage), htr]
    cases hdel : env.deleteAfter <;> cases hul : w.unlinkOk <;>
      simp [hs, hsave, hdel, hul]

theorem C7_witness :
    JValue.str "n.m4a" ∉ (∅ : Finset JValue) ∧
    process_file ⟨5, true, 100⟩ ⟨"n.m4a", 0, 1⟩
        ⟨.response 200 (.parsed (.obj (.ocons "text" (.str "hi") .onil))),
          .status 202, true, false⟩ ∅ =
      (.ok true, insert (JValue.str "n.m4a") ∅,
        [.sttCall, .deliveryCall, .markProcessed, .saveCall, .unlinkCall]) :=
  ⟨by decide,
   C7_mark_after_delivery.2.2.2 ⟨5, true, 100⟩ ⟨"n.m4a", 0, 1⟩
     ⟨.response 200 (.parsed (.obj (.ocons "text" (.str "hi") .onil))),
       .status 202, true, false⟩ ∅ ⟨"hi", none⟩
     (by decide) (by decide) (by rfl) (by rfl) rfl⟩

/-- Does `transcribe` return (rather than raise)?  `False` exactly when
the uncaught `AttributeError` of an unexpectedly shaped STT body
fires. -/
def transcribeReturns (w : World) : Bool :=
  match transcribe w.stt with
  | .error _ => false
  | .ok _ => true

/-- A directory entry whose processing attempt raises no uncaught
exception: the store write succeeds and the STT body is not of an
unexpected shape. -/
def entryTame (e : DirEntry) : Bool := e.world.saveOk && transcribeReturns e.world

theorem process_file_ok_of_tame (env : Env) (c : Candidate) (w : World)
    (processed : Finset JValue) (h1 : w.saveOk = true) (h2 : transcribeReturns w = true) :
    ∃ b p tr, process_file env c w processed = (.ok b, p, tr) := by
  unfold process_file
  by_cases hmem : JValue.str c.name ∈ processed
  · rw [if_pos hmem]; exact ⟨false, processed, [], rfl⟩
  · rw [if_neg hmem]
    by_cases hage : env.now - c.mtime < env.minFileAge
    · rw [if_pos hage]; exact ⟨false, processed, [], rfl⟩
    · rw [if_neg hage]
      cases htr : transcribe w.stt with
      | error e =>
        unfold transcribeReturns at h2
        rw [htr] at h2
        cases h2
      | ok o =>
        cases o with
        | none => exact ⟨false, processed, [.sttCall], rfl⟩
        | some t =>
          by_cases hs : send_to_openclaw w.delivery
          · cases hdel : env.deleteAfter <;> cases hul : w.unlinkOk <;>
              simp [hs, h1, hdel, hul]
          · simp [hs]

theorem process_existing_ok_of_tame (env : Env) :
    ∀ (items : List DirEntry) (processed : Finset JValue),
      (∀ e ∈ items, entryTame e = true) →
      ∃ p tr cnt, process_existing env items processed = (.ok (), p, tr, cnt) := by
  intro items
  induction items with
  | nil => intro processed _; exact ⟨processed, [], 0, rfl⟩
  | cons e rest ih =>
    intro processed hall
    have he : entryTame e = true := hall e (List.mem_cons_self e rest)
    have hrest : ∀ x ∈ rest, entryTame x = true :=
      fun x hx => hall x (List.mem_cons_of_mem e hx)
    unfold process_existing
    by_cases hf : e.isFile && audioExtensions.contains (pyLower (pySuffix e.name))
    · rw [if_pos hf]
      unfold entryTame at he
      obtain ⟨b, p1, tr, hpf⟩ :=
        process_file_ok_of_tame env ⟨e.name, e.mtime, e.size⟩ e.world processed
          (Bool.and_elim_left he) (Bool.and_elim_right he)
      obtain ⟨p2, tr2, cnt, hrec⟩ := ih p1 hrest
      simp only [hpf, hrec]
      exact ⟨p2, tr ++ tr2, (if b then 1 else 0) + cnt, rfl⟩
    · rw [if_neg hf]
      exact ih processed hrest

/-- C2 counterexample: a two-candidate sweep in which the first
candidate's delivery succeeds but `save_state` raises `OSError`.  The
sweep aborts with the uncaught exception after [STT call, delivery
call, in-memory add, store-write attempt]: the second candidate is
never examined (exactly one STT call in the trace) and the watch loop
— which catches only `KeyboardInterrupt` — terminates.  This refutes
the claim that a store I/O error is contained within the candidate's
attempt. -/
theorem C2_counterexample :
    runSweeps ⟨5, true, 100⟩
      [[⟨"a.m4a", true, 0, 1,
          ⟨.response 200 (.parsed (.obj (.ocons "text" (.str "hi") .onil))),
            .status 200, false, true⟩⟩,
        ⟨"b.m4a", true, 0, 1,
          ⟨.response 200 (.parsed (.obj (.ocons "text" (.str "hi") .onil))),
            .status 200, true, true⟩⟩]] ∅ =
      (.error .osError, [.sttCall, .deliveryCall, .markProcessed, .saveCall]) := by
  rfl

/-- C2 as amended: every per-candidate failure the code actually
catches — STT transport/status/parse failures, empty transcripts,
delivery failures, deletion failures — is contained: a schedule of
sweeps whose candidates raise no uncaught exception (store writes
succeed, STT bodies are not of unexpected shape) always runs to
completion.  An uncaught exception (e.g. `OSError` from `save_state`)
instead aborts the sweep and the loop, as the counterexample shows. -/
theorem C2_error_containment_amended (env : Env) (sweeps : List (List DirEntry))
    (processed : Finset JValue)
    (h : ∀ s ∈ sweeps, ∀ e ∈ s, entryTame e = true) :
    ∃ p tr, runSweeps env sweeps processed = (.ok p, tr) := by
  induction sweeps generalizing processed with
  | nil => exact ⟨processed, [], rfl⟩
  | cons s rest ih =>
    have hs : ∀ e ∈ s, entryTame e = true := h s (List.mem_cons_self s rest)
    have hrest : ∀ x ∈ rest, ∀ e ∈ x, entryTame e = true :=
      fun x hx => h x (List.mem_cons_of_mem s hx)
    obtain ⟨p1, tr, cnt, h1⟩ := process_existing_ok_of_tame env s processed hs
    obtain ⟨p2, tr2, h2⟩ := ih p1 hrest
    unfold runSweeps
    simp only [h1, h2]
    exact ⟨p2, tr ++ tr2, rfl⟩

theorem C2_witness :
    (∀ s ∈ [[(⟨"a.m4a", true, 0, 1,
          ⟨.response 200 (.parsed (.obj (.ocons "text" (.str "hi") .onil))),
            .status 503, true, true⟩⟩ : DirEntry)],
        [(⟨"a.m4a", true, 0, 1,
          ⟨.transportError, .status 202, true, true⟩⟩ : DirEntry)]],
      ∀ e ∈ s, entryTame e = true) ∧
    ∃ p tr, runSweeps ⟨5, true, 100⟩
      [[⟨"a.m4a", true, 0, 1,
          ⟨.response 200 (.parsed (.obj (.ocons "text" (.str "hi") .onil))),
            .status 503, true, true⟩⟩],
        [⟨"a.m4a", true, 0, 1,
          ⟨.transportError, .status 202, true, true⟩⟩]] ∅ = (.ok p, tr) :=
  ⟨by decide,
   C2_error_containment_amended ⟨5, true, 100⟩ _ ∅ (by decide)⟩

/-- C3 counterexample: the JSON text `[]` is a possible state-file
content that parses fine, yet `load_state` raises `AttributeError`
(a Python list has no `.get`) instead of returning the empty set — the
handler at src/main.py line 56 catches only `json.JSONDecodeError` and
`KeyError`.  This refutes the claim for "any malformed/unexpected
content". -/
theorem C3_counterexample :
    load_state (.parsed (.arr .anil)) = .error .attributeError := rfl

/-- C3 as amended: a missing state file or one whose text `json.loads`
rejects yields the empty set without failing; a top-level JSON object
yields the set of elements of its `"processed"` array (defaulting to
empty when the key is absent); but well-formed JSON whose top level is
not an object makes `load_state` raise `AttributeError` instead of
returning the empty set. -/
theorem C3_load_state_amended :
    load_state .absent = .ok ∅ ∧
    load_state .badSyntax = .ok ∅ ∧
    (∀ (kvs : JObj) (xs : JArr),
        kvs.getD "processed" (.arr .anil) = .arr xs →
        jArrHashable xs = true →
        load_state (.parsed (.obj kvs)) = .ok xs.toList.toFinset) ∧
    (∀ v : JValue, jIsObj v = false →
        load_state (.parsed v) = .error .attributeError) := by
  refine ⟨rfl, rfl, ?_, ?_⟩
  · intro kvs xs h hh
    simp [load_state, h, pySet, hh]
  · intro v hv
    cases v <;> first | rfl | simp [jIsObj] at hv

theorem C3_witness :
    (JObj.ocons "processed" (.arr (.acons (.str "a.m4a") .anil)) .onil).getD
        "processed" (.arr .anil) = .arr (.acons (.str "a.m4a") .anil) ∧
    jArrHashable (.acons (.str "a.m4a") .anil) = true ∧
    load_state (.parsed (.obj (.ocons "processed"
        (.arr (.acons (.str "a.m4a") .anil)) .onil))) =
      .ok (JArr.acons (.str "a.m4a") .anil).toList.toFinset ∧
    jIsObj (.num 3) = false ∧
    load_state (.parsed (.num 3)) = .error .attributeError :=
  ⟨by decide, by decide,
   C3_load_state_amended.2.2.1 (.ocons "processed"
      (.arr (.acons (.str "a.m4a") .anil)) .onil)
     (.acons (.str "a.m4a") .anil) (by decide) (by decide),
   rfl,
   C3_load_state_amended.2.2.2 (.num 3) rfl⟩

/-- C4 counterexample: `save_state` writes via a bare
`Path.write_text`, which truncates before writing; crashing right
after the truncation leaves an empty file — which is neither the old
content (here a previously saved state) nor the new one.  This refutes
"a crash ... leaves either the old content or the new content on disk,
never a partially written file". -/
theorem C4_counterexample :
    "" ∈ save_stateCrashStates
        (dumpsStateText ["a.m4a"] "2024-01-01T00:00:00+00:00") ∅
        "2024-01-02T00:00:00+00:00" ∧
    "" ≠ dumpsStateText ["a.m4a"] "2024-01-01T00:00:00+00:00" ∧
    "" ≠ dumpsStateText [] "2024-01-02T00:00:00+00:00" := by
  refine ⟨?_, by decide, by decide⟩
  show "" ∈ write_textCrashStates _ _
  unfold write_textCrashStates
  refine List.mem_cons.2 (Or.inr (List.mem_map.2 ⟨0, ?_, rfl⟩))
  simp

/-- C4 as amended: `save_state` writes the full sorted set plus the
timestamp in one direct truncate-and-write; a crash concurrent with
the write leaves either the old content or some prefix of the new
serialised text — including the empty or any partially written file —
and an uninterrupted write leaves exactly the new text. -/
theorem C4_save_crash_amended (old : String) (processed : Finset String) (ts : String) :
    (∀ t ∈ save_stateCrashStates old processed ts,
        t = old ∨
        ∃ n, t = String.mk ((dumpsStateText (processed.sort (· ≤ ·)) ts).data.take n)) ∧
    dumpsStateText (processed.sort (· ≤ ·)) ts ∈ save_stateCrashStates old processed ts ∧
    old ∈ save_stateCrashStates old processed ts := by
  unfold save_stateCrashStates write_textCrashStates
  refine ⟨?_, ?_, List.mem_cons_self _ _⟩
  · intro t ht
    rcases List.mem_cons.1 ht with h | h
    · exact Or.inl h
    · obtain ⟨n, _, hn⟩ := List.mem_map.1 h
      exact Or.inr ⟨n, hn.symm⟩
  · refine List.mem_cons.2 (Or.inr (List.mem_map.2
      ⟨(dumpsStateText (processed.sort (· ≤ ·)) ts).data.length, ?_, ?_⟩))
    · exact List.mem_range.2 (Nat.lt_succ_self _)
    · rw [List.take_length]

theorem C4_witness :
    ("" = "old content" ∨
      ∃ n, "" = String.mk ((dumpsStateText ((∅ : Finset String).sort (· ≤ ·))
        "t1").data.take n)) ∧
    dumpsStateText ((∅ : Finset String).sort (· ≤ ·)) "t1" ∈
      save_stateCrashStates "old content" ∅ "t1" :=
  ⟨(C4_save_crash_amended "old content" ∅ "t1").1 "" (by
      show "" ∈ write_textCrashStates _ _
      unfold write_textCrashStates
      exact List.mem_cons.2 (Or.inr (List.mem_map.2 ⟨0, by simp, rfl⟩))),
   (C4_save_crash_amended "old content" ∅ "t1").2.1⟩

/-- C9: `transcribe` (src/main.py lines 85-100) returns `None` whenever
the response parses to an object whose `text` field strips to the empty
string (including an absent field, which defaults to `""`), and any
transcript it does return carries a non-empty, already-stripped text
(so the text is non-empty after stripping whitespace). -/
theorem C9_transcript_nonempty :
    (∀ (code : Nat) (kvs : JObj) (s : String),
        ¬(400 ≤ code ∧ code < 600) →
        kvs.getD "text" (.str "") = .str s →
        pyStrip s = "" →
        transcribe (.response code (.parsed (.obj kvs))) = .ok none) ∧
    (∀ (r : SttHttp) (t : Transcript),
        transcribe r = .ok (some t) → t.text ≠ "" ∧ pyStrip t.text = t.text) := by
  constructor
  · intro code kvs s hcode hget hstrip
    simp [transcribe, hcode, hget, hstrip]
  · intro r t h
    cases r with
    | transportError => simp [transcribe] at h
    | response code body =>
      simp only [transcribe] at h
      by_cases hcode : 400 ≤ code ∧ code < 600
      · rw [if_pos hcode] at h
        cases h
      · rw [if_neg hcode] at h
        cases body with
        | parseFail => cases h
        | parsed v =>
          cases v with
          | obj kvs =>
            dsimp only at h
            cases hget : kvs.getD "text" (.str "") with
            | str s =>
              rw [hget] at h
              dsimp only at h
              by_cases hs : pyStrip s = ""
              · rw [if_pos hs] at h
                cases h
              · rw [if_neg hs] at h
                cases h
                exact ⟨hs, pyStrip_idem s⟩
            | null => rw [hget] at h; cases h
            | jbool b => rw [hget] at h; cases h
            | num n => rw [hget] at h; cases h
            | arr xs => rw [hget] at h; cases h
            | obj kvs2 => rw [hget] at h; cases h
          | null => cases h
          | jbool b => cases h
          | num n => cases h
          | str s => cases h
          | arr xs => cases h

theorem C9_witness :
    transcribe (.response 200 (.parsed (.obj (.ocons "text" (.str "  ") .onil)))) =
      .ok none ∧
    ("hi" ≠ "" ∧ pyStrip "hi" = "hi") :=
  ⟨C9_transcript_nonempty.1 200 (.ocons "text" (.str "  ") .onil) "  "
     (by decide) (by decide) (by decide),
   C9_transcript_nonempty.2
     (.response 200 (.parsed (.obj (.ocons "text" (.str " hi ") .onil))))
     ⟨"hi", none⟩ (by rfl)⟩
